import Mathlib

/-!
# A shallow embedding of the ConnectionPool repository

The repository implements a generic connection pool (`channelPool`) guarded
by a single mutex.  We embed the pool state and its operations (`NewPool`,
`Get`, `Put`, `Close`, `Release`) as pure Lean functions over an explicit
state record.  Connections are identified by opaque `Nat` handles; wait-queue
channels are identified by `Nat` slot ids handed out from a `nextSlot`
counter; `time.Time` values are `Nat` timestamps; the Go `int` fields
(`numOpen`, `maxIdle`, `maxOpen`) are `Int` (they may go negative).  Calls to
the user-supplied `close` callback are recorded in a `closerCalls` list so
that "resource was destroyed" is observable; the `factory` callback is an
oracle argument (`Option Nat`: a fresh handle, or a failure).
-/

/-- The `policyType` strategy flag of `channelPool`. -/
inductive PolicyType where
  | cachedOrNewConn
  | alwaysNewConn
deriving DecidableEq, Repr

/-- The error values of the package (errors.go). -/
inductive PoolError where
  | invalidCapacity
  | invalidFactoryFunc
  | invalidCloseFunc
  | invalidPingFunc
  | openNumber
  | connIsNil
  | poolClosed
  | poolClosedAndClose
  /-- A raw error propagated from the user factory (`Get` returns it as-is;
  the spec calls it `FactoryError`). -/
  | factoryError
deriving DecidableEq, Repr

/-- The `idleConn` wrapper: an opaque handle, the `inUse` flag and the
timestamp `t` set when the connection was (re)wrapped. -/
structure IdleConn where
  conn : Nat
  inUse : Bool
  t : Nat
deriving DecidableEq, Repr

/-- The `channelPool` state.  `freeConn` front = oldest idle connection;
`waitingQueue` front = oldest pending wait slot (one blocked `Get` each);
`nextSlot` is modelling infrastructure giving fresh identities to the
one-shot channels `Get` allocates. -/
structure ChannelPool where
  freeConn : List IdleConn
  waitingQueue : List Nat
  numOpen : Int
  closed : Bool
  maxIdle : Int
  maxOpen : Int
  strategy : PolicyType
  nextSlot : Nat
deriving DecidableEq, Repr

/-- Result of `Get`: a connection, a pending wait slot (the caller is now
blocked on `<-req`), or an error. -/
inductive GetRes where
  | ok (conn : Nat)
  | blocked (slot : Nat)
  | err (e : PoolError)
deriving DecidableEq, Repr

/-- Output of `Get`: result, post state, and the handles passed to the user
`close` callback during the call. -/
structure GetOut where
  res : GetRes
  pool : ChannelPool
  closerCalls : List Nat
deriving DecidableEq, Repr

/-- Result of `Put`: the connection was sent to the front wait slot, appended
to `freeConn`, or an error was returned. -/
inductive PutRes where
  | deliveredToWaiter (slot : Nat) (conn : Nat)
  | pooled
  | err (e : PoolError)
deriving DecidableEq, Repr

/-- Output of `Put`. -/
structure PutOut where
  res : PutRes
  pool : ChannelPool
  closerCalls : List Nat
deriving DecidableEq, Repr

/-- Output of `Close` (`res = none` means success). -/
structure CloseOut where
  res : Option PoolError
  pool : ChannelPool
  closerCalls : List Nat
deriving DecidableEq, Repr

/-- Output of `Release`.  `signalled` records the wait slots to which a
"pool closed" signal is delivered (a channel close), so that unblocking of
pending `Get` calls is observable. -/
structure ReleaseOut where
  pool : ChannelPool
  closerCalls : List Nat
  signalled : List Nat
deriving DecidableEq, Repr

/-- The capacity / creation tail of `Get` (part_000 lines 100–124): if the
pool is bounded and at capacity, enqueue a fresh wait slot and block;
otherwise optimistically increment `numOpen`, call the factory, and on
failure decrement `numOpen` back and propagate the error. -/
def getRest (p : ChannelPool) (factory : Option Nat) : GetOut :=
  if p.maxOpen > 0 ∧ p.numOpen ≥ p.maxOpen then
    ⟨.blocked p.nextSlot,
     { p with waitingQueue := p.waitingQueue ++ [p.nextSlot],
              nextSlot := p.nextSlot + 1 }, []⟩
  else
    let p1 := { p with numOpen := p.numOpen + 1 }
    match factory with
    | none => ⟨.err .factoryError, { p1 with numOpen := p1.numOpen - 1 }, []⟩
    | some c => ⟨.ok c, p1, []⟩

/-- `channelPool.Get` (part_000 lines 80–125).  If the pool is closed, fail
with `ErrPoolClosed`; else, with the cached strategy and a non-empty
`freeConn`, pop the front idle connection and return it; else fall through
to the capacity / creation logic. -/
def Get (p : ChannelPool) (factory : Option Nat) : GetOut :=
  if p.closed then ⟨.err .poolClosed, p, []⟩
  else
    match p.strategy, p.freeConn with
    | .cachedOrNewConn, ic :: rest => ⟨.ok ic.conn, { p with freeConn := rest }, []⟩
    | .cachedOrNewConn, [] => getRest p factory
    | .alwaysNewConn, _ => getRest p factory

/-- `channelPool.Put` (part_000 lines 129–157).  A nil connection is
rejected; on a closed pool the connection is closed and
`ErrPoolClosedAndClose` returned; on `numOpen > maxOpen` (bounded),
`ErrOpenNumber`; else the connection is sent to the front wait slot if the
wait queue is non-empty, and otherwise appended to `freeConn` with a fresh
timestamp.  There is no `maxIdle` check on this path. -/
def Put (p : ChannelPool) (conn : Option Nat) (now : Nat) : PutOut :=
  match conn with
  | none => ⟨.err .connIsNil, p, []⟩
  | some c =>
    if p.closed then ⟨.err .poolClosedAndClose, p, [c]⟩
    else if p.maxOpen > 0 ∧ p.numOpen > p.maxOpen then ⟨.err .openNumber, p, []⟩
    else
      match p.waitingQueue with
      | s :: rest => ⟨.deliveredToWaiter s c, { p with waitingQueue := rest }, []⟩
      | [] => ⟨.pooled, { p with freeConn := p.freeConn ++ [⟨c, false, now⟩] }, []⟩

/-- `channelPool.Close` (part_000 lines 172–185).  A nil connection is
rejected; on a closed pool the connection is closed and
`ErrPoolClosedAndClose` returned; otherwise `numOpen` is decremented
unconditionally and the connection closed. -/
def Close (p : ChannelPool) (conn : Option Nat) : CloseOut :=
  match conn with
  | none => ⟨some .connIsNil, p, []⟩
  | some c =>
    if p.closed then ⟨some .poolClosedAndClose, p, [c]⟩
    else ⟨none, { p with numOpen := p.numOpen - 1 }, [c]⟩

/-- `channelPool.Release` (part_000 lines 188–196).  Sets `closed := true`
and calls the user `close` callback on every connection in `freeConn`.
`freeConn` is NOT cleared and the channels in `waitingQueue` are neither
closed nor sent to, so `signalled = []`. -/
def Release (p : ChannelPool) : ReleaseOut :=
  ⟨{ p with closed := true }, p.freeConn.map IdleConn.conn, []⟩

/-- The configuration validation at the head of `NewPool` (part_000 lines
40–48), in source order.  `hasFactory` / `hasClose` stand for the callbacks
being non-nil. -/
def validateConfig (initialCap maxCap : Int) (hasFactory hasClose : Bool) :
    Option PoolError :=
  if initialCap < 0 ∨ maxCap < 0 ∨ initialCap > maxCap then some .invalidCapacity
  else if ¬hasFactory then some .invalidFactoryFunc
  else if ¬hasClose then some .invalidCloseFunc
  else none

/-- The pre-warming loop of `NewPool` (part_000 lines 66–73): call the
factory `n` times in order, wrapping each result; `none` if any call fails. -/
def prewarm (factory : Nat → Option Nat) (now : Nat) : Nat → Option (List IdleConn)
  | 0 => some []
  | n + 1 =>
    match prewarm factory now n, factory n with
    | some l, some c => some (l ++ [⟨c, false, now⟩])
    | _, _ => none

/-- `NewPool` (part_000 lines 39–77): validate the configuration, pre-warm
`InitialCap` connections, and build the pool with `maxIdle := InitialCap`,
`maxOpen := MaxCap`, `numOpen := InitialCap`. -/
def NewPool (initialCap maxCap : Int) (hasFactory hasClose : Bool)
    (factory : Nat → Option Nat) (now : Nat) : Except PoolError ChannelPool :=
  match validateConfig initialCap maxCap hasFactory hasClose with
  | some e => .error e
  | none =>
    match prewarm factory now initialCap.toNat with
    | none => .error .factoryError
    | some l =>
      .ok { freeConn := l, waitingQueue := [], numOpen := initialCap,
            closed := false, maxIdle := initialCap, maxOpen := maxCap,
            strategy := .cachedOrNewConn, nextSlot := 0 }

example :
    (Get ⟨[⟨1, false, 0⟩], [], 1, false, 1, 2, .cachedOrNewConn, 0⟩ none).res
      = .ok 1 := by decide

example :
    (Put ⟨[], [5], 2, false, 1, 2, .cachedOrNewConn, 0⟩ (some 9) 7).res
      = .deliveredToWaiter 5 9 := by decide

/-- Modelled from the spec: the idle-timeout eviction loop of the
`IdleTimeout` variant (spec §4.7; the `Get` implementing `Config.IdleTimeout`
is declared in part_003 but its body is not under src/).  Pops expired
connections (`now - lastReturnedAt > d`) off the front of the idle list
until a live one is found; returns the surviving list and the number
evicted. -/
def evictExpired (d now : Nat) : List IdleConn → List IdleConn × Nat
  | [] => ([], 0)
  | ic :: rest =>
    if now - ic.t > d then
      let ep := evictExpired d now rest
      (ep.1, ep.2 + 1)
    else (ic :: rest, 0)

/-- Modelled from the spec: the `Get` of the `IdleTimeout` variant
(spec §4.2 with §4.7; its body is not under src/, only `Config.IdleTimeout`
in part_003 and the example caller).  If the pool is closed, fail; when
`d > 0` first evict expired idle connections, closing each (so `numOpen`
drops by the count evicted); hand out the first surviving idle connection;
if none survive, fall through to the capacity / creation logic of `Get`. -/
def getWithTimeout (p : ChannelPool) (d now : Nat) (factory : Option Nat) :
    GetOut :=
  if p.closed then ⟨.err .poolClosed, p, []⟩
  else
    let ep := if d > 0 then evictExpired d now p.freeConn else (p.freeConn, 0)
    let calls := (p.freeConn.take ep.2).map IdleConn.conn
    let p1 : ChannelPool := { p with freeConn := ep.1, numOpen := p.numOpen - ep.2 }
    match ep.1 with
    | ic :: rest => ⟨.ok ic.conn, { p1 with freeConn := rest }, calls⟩
    | [] =>
      let out := getRest p1 factory
      ⟨out.res, out.pool, calls ++ out.closerCalls⟩

/-- One external call on the pool, for reasoning about call sequences. -/
inductive PoolOp where
  | get (factory : Option Nat)
  | put (conn : Option Nat) (now : Nat)
deriving DecidableEq, Repr

/-- The state transition of one call. -/
def step (p : ChannelPool) : PoolOp → ChannelPool
  | .get f => (Get p f).pool
  | .put c now => (Put p c now).pool

/-- Run a sequence of calls from a state. -/
def run (p : ChannelPool) (ops : List PoolOp) : ChannelPool :=
  ops.foldl step p

/-- The acceptance predicate claimed by the spec for `NewPool`
(for refinement comparison with `validateConfig`): reject exactly when
`initialSize < 0`, a callback is nil, or `maxOpen > 0 ∧ initialSize >
maxOpen`. -/
def specClaimedValidCfg (initialCap maxCap : Int) (hasFactory hasClose : Bool) :
    Bool :=
  !(initialCap < 0) && hasFactory && hasClose && !(maxCap > 0 && initialCap > maxCap)

/-- Check whether an error is one of the three configuration-validation
errors of NewPool. -/
def isConfigError : PoolError → Bool
  | .invalidCapacity => true
  | .invalidFactoryFunc => true
  | .invalidCloseFunc => true
  | _ => false

lemma validateConfig_none_iff (ic mc : Int) (hf hc : Bool) :
    validateConfig ic mc hf hc = none ↔
      (0 ≤ ic ∧ 0 ≤ mc ∧ ic ≤ mc ∧ hf = true ∧ hc = true) := by
  unfold validateConfig
  split_ifs with h1 h2 h3 <;> simp_all <;> omega

lemma validateConfig_some_config (ic mc : Int) (hf hc : Bool) (e : PoolError)
    (h : validateConfig ic mc hf hc = some e) : isConfigError e = true := by
  unfold validateConfig at h
  split_ifs at h <;> cases h <;> rfl

/-- C1 evidence: Release (part_000 lines 188–196) delivers no "closed"
signal to any pending wait slot — it only sets the closed flag and calls the
closer on each idle connection, leaving the wait queue untouched, so a Get
blocked on a wait slot is never unblocked with PoolClosed. -/
theorem release_never_signals_waiters (p : ChannelPool) :
    (Release p).signalled = [] ∧
    (Release p).pool.waitingQueue = p.waitingQueue ∧
    (Release p).pool.closed = true ∧
    (Release p).closerCalls = p.freeConn.map IdleConn.conn := by
  simp [Release]

/-- A pool whose idle set already holds `maxIdle = 1` connection. -/
def p2c : ChannelPool := ⟨[⟨1, false, 0⟩], [], 2, false, 1, 5, .cachedOrNewConn, 0⟩

/-- C2 counterexample: a Put on an open pool with an empty wait queue and a
full idle set (len = maxIdle = 1) appends the connection anyway — the idle
set grows to 2 > maxIdle, the closer is not called and numOpen is not
decremented. -/
theorem put_exceeds_maxIdle_counterexample :
    p2c.closed = false ∧ p2c.waitingQueue = [] ∧ p2c.maxIdle = 1 ∧
    (Put p2c (some 9) 3).res = .pooled ∧
    (Put p2c (some 9) 3).closerCalls = [] ∧
    (Put p2c (some 9) 3).pool.numOpen = p2c.numOpen ∧
    ((Put p2c (some 9) 3).pool.freeConn.length : Int) > p2c.maxIdle := by
  decide

/-- C2 amended: every Put on an open pool with an empty wait queue (and the
defensive over-capacity guard not tripped) appends the connection to the
idle set unconditionally — there is no maxIdle bound on this path. -/
theorem put_appends_unconditionally (p : ChannelPool) (c : Nat) (now : Nat)
    (hc : p.closed = false) (hw : p.waitingQueue = [])
    (hcap : ¬(p.maxOpen > 0 ∧ p.numOpen > p.maxOpen)) :
    Put p (some c) now =
      ⟨.pooled, { p with freeConn := p.freeConn ++ [⟨c, false, now⟩] }, []⟩ := by
  simp [Put, hc, hw, hcap]

/-- C2 amended, witnessed at a concrete over-full idle set. -/
theorem put_appends_unconditionally_witness :
    Put p2c (some 9) 3 =
      ⟨.pooled, { p2c with freeConn := p2c.freeConn ++ [⟨9, false, 3⟩] }, []⟩ :=
  put_appends_unconditionally p2c 9 3 rfl rfl (by decide)

/-- An open pool with one idle connection (handle 7). -/
def p4 : ChannelPool := ⟨[⟨7, false, 0⟩], [], 1, false, 1, 2, .cachedOrNewConn, 0⟩

/-- C4 counterexample: calling Release a second time on an already-closed
pool calls the closer again on the idle connection (handle 7), because
Release does not clear freeConn — it is not free of further closer calls. -/
theorem release_second_call_closes_again :
    (Release p4).pool.closed = true ∧
    (Release (Release p4).pool).closerCalls = [7] := by
  decide

/-- C4 amended: a second Release on an already-closed pool leaves the pool
state unchanged and delivers no signals, but re-invokes the closer on every
connection still in freeConn. -/
theorem release_idempotent_state (p : ChannelPool) (h : p.closed = true) :
    (Release p).pool = p ∧
    (Release p).closerCalls = p.freeConn.map IdleConn.conn ∧
    (Release p).signalled = [] := by
  cases p
  simp_all [Release]

/-- C4 amended, witnessed on the pool obtained by a first Release. -/
theorem release_idempotent_state_witness :
    (Release (Release p4).pool).pool = (Release p4).pool ∧
    (Release (Release p4).pool).closerCalls
      = (Release p4).pool.freeConn.map IdleConn.conn ∧
    (Release (Release p4).pool).signalled = [] :=
  release_idempotent_state (Release p4).pool rfl

/-- C5 counterexample: the configuration initialSize = 1, maxOpen = 0
(unbounded), both callbacks non-nil is accepted by the claim's predicate but
rejected by the code with ErrInvalidCapacity, because the InitialCap > MaxCap
check is not gated on MaxCap > 0. -/
theorem newPool_unbounded_rejected_counterexample :
    specClaimedValidCfg 1 0 true true = true ∧
    validateConfig 1 0 true true = some .invalidCapacity ∧
    NewPool 1 0 true true (fun _ => some 0) 0 = .error .invalidCapacity := by
  refine ⟨by decide, by decide, rfl⟩

/-- C5 amended: NewPool fails with a configuration error exactly when
initialSize < 0, or maxOpen < 0, or initialSize > maxOpen (unconditionally,
so maxOpen = 0 admits only initialSize = 0), or the factory is nil, or the
closer is nil. -/
theorem newPool_config_error_iff (ic mc : Int) (hf hc : Bool)
    (f : Nat → Option Nat) (now : Nat) :
    (∃ e, NewPool ic mc hf hc f now = .error e ∧ isConfigError e = true) ↔
      ¬(0 ≤ ic ∧ 0 ≤ mc ∧ ic ≤ mc ∧ hf = true ∧ hc = true) := by
  constructor
  · rintro ⟨e, he, hce⟩ hacc
    have hv : validateConfig ic mc hf hc = none :=
      (validateConfig_none_iff ic mc hf hc).mpr hacc
    unfold NewPool at he
    rw [hv] at he
    cases hp : prewarm f now ic.toNat <;> rw [hp] at he
    · simp only [Except.error.injEq] at he
      subst he
      simp [isConfigError] at hce
    · simp at he
  · intro hacc
    cases hv : validateConfig ic mc hf hc with
    | none => exact absurd ((validateConfig_none_iff ic mc hf hc).mp hv) hacc
    | some e =>
      refine ⟨e, ?_, validateConfig_some_config ic mc hf hc e hv⟩
      unfold NewPool
      rw [hv]

/-- C7: on the creation path (pool open, no idle connection, capacity
available) a factory failure makes Get return the factory's error and
restore the pool state exactly — numOpen is decremented back, nothing else
changed. -/
theorem get_factory_failure_restores (p : ChannelPool)
    (hc : p.closed = false) (hf : p.freeConn = [])
    (hcap : ¬(p.maxOpen > 0 ∧ p.numOpen ≥ p.maxOpen)) :
    Get p none = ⟨.err .factoryError, p, []⟩ := by
  unfold Get
  rw [hc, hf]
  cases hs : p.strategy <;>
    · simp only []
      unfold getRest
      rw [if_neg hcap]
      have hn : p.numOpen + 1 - 1 = p.numOpen := by omega
      simp only [hn]
      rfl

/-- The claim's concrete scenario: maxOpen = 1, empty pool, failing
factory. -/
def p7 : ChannelPool := ⟨[], [], 0, false, 1, 1, .cachedOrNewConn, 0⟩

/-- C7 witnessed at the claim's scenario: Get returns the factory error and
numOpen is back to 0. -/
theorem get_factory_failure_restores_witness :
    Get p7 none = ⟨.err .factoryError, p7, []⟩ ∧ (Get p7 none).pool.numOpen = 0 :=
  ⟨get_factory_failure_restores p7 rfl rfl (by decide), by decide⟩

/-- C8: a Put on an open pool with a non-empty wait queue (over-capacity
guard not tripped) pops the front (oldest) wait slot and delivers the
connection to it; freeConn is untouched (the resource never enters the idle
set) and the closer is not called. -/
theorem put_delivers_to_oldest_waiter (p : ChannelPool) (c : Nat) (now : Nat)
    (s : Nat) (rest : List Nat)
    (hc : p.closed = false) (hw : p.waitingQueue = s :: rest)
    (hcap : ¬(p.maxOpen > 0 ∧ p.numOpen > p.maxOpen)) :
    Put p (some c) now =
      ⟨.deliveredToWaiter s c, { p with waitingQueue := rest }, []⟩ := by
  simp [Put, hc, hw, hcap]

/-- A pool at capacity with two pending wait slots (4 oldest, then 9). -/
def p8 : ChannelPool := ⟨[], [4, 9], 2, false, 1, 2, .cachedOrNewConn, 2⟩

/-- C8 witnessed: the returned connection 11 goes to slot 4, the oldest
waiter, and slot 9 keeps waiting. -/
theorem put_delivers_to_oldest_waiter_witness :
    Put p8 (some 11) 5 =
      ⟨.deliveredToWaiter 4 11, { p8 with waitingQueue := [9] }, []⟩ :=
  put_delivers_to_oldest_waiter p8 11 5 4 [9] rfl rfl (by decide)

/-- A pool with two idle connections, 1 in front of 2. -/
def p9 : ChannelPool := ⟨[⟨1, false, 0⟩, ⟨2, false, 0⟩], [], 2, false, 2, 5, .cachedOrNewConn, 0⟩

/-- C9 counterexample: with two idle connections, Get pops connection 1 off
the front, Put appends it at the back, and the next Get returns connection
2, not the round-tripped connection 1. -/
theorem roundtrip_identity_counterexample :
    (Get p9 none).res = .ok 1 ∧
    (Put (Get p9 none).pool (some 1) 3).res = .pooled ∧
    (Get (Put (Get p9 none).pool (some 1) 3).pool none).res = .ok 2 ∧
    GetRes.ok 2 ≠ GetRes.ok 1 := by
  decide

/-- C9 amended: the round-trip identity holds when the first Get empties the
idle set (exactly one idle connection) and the wait queue is empty: the same
connection comes back from the next Get. -/
theorem roundtrip_identity_singleton (p : ChannelPool) (ic : IdleConn)
    (now : Nat) (f1 f2 : Option Nat)
    (hs : p.strategy = .cachedOrNewConn) (hc : p.closed = false)
    (hf : p.freeConn = [ic]) (hw : p.waitingQueue = [])
    (hcap : ¬(p.maxOpen > 0 ∧ p.numOpen > p.maxOpen)) :
    (Get p f1).res = .ok ic.conn ∧
    (Get (Put (Get p f1).pool (some ic.conn) now).pool f2).res = .ok ic.conn := by
  have h1 : Get p f1 = ⟨.ok ic.conn, { p with freeConn := [] }, []⟩ := by
    unfold Get
    rw [hc, hf, hs]
    rfl
  rw [h1]
  have h2 : Put { p with freeConn := ([] : List IdleConn) } (some ic.conn) now =
      ⟨.pooled, { p with freeConn := [⟨ic.conn, false, now⟩] }, []⟩ := by
    simp [Put, hc, hw, hcap]
  simp only [h2]
  unfold Get
  rw [hs]
  simp [hc]

/-- A pool with the single idle connection 5. -/
def p9w : ChannelPool := ⟨[⟨5, false, 0⟩], [], 1, false, 1, 3, .cachedOrNewConn, 0⟩

/-- C9 amended, witnessed: connection 5 round-trips through Get, Put, Get. -/
theorem roundtrip_identity_singleton_witness :
    (Get p9w none).res = .ok 5 ∧
    (Get (Put (Get p9w none).pool (some 5) 7).pool none).res = .ok 5 :=
  roundtrip_identity_singleton p9w ⟨5, false, 0⟩ 7 none none rfl rfl rfl rfl
    (by decide)

/-- C10: Close on an open pool with a non-nil connection always decrements
numOpen by exactly one — there is no check that numOpen is positive or that
the connection came from this pool — so from numOpen = 0 it goes negative. -/
theorem close_decrements_unconditionally (p : ChannelPool) (c : Nat)
    (hc : p.closed = false) :
    (Close p (some c)).pool.numOpen = p.numOpen - 1 ∧
    (Close p (some c)).res = none ∧
    (Close p (some c)).closerCalls = [c] ∧
    (p.numOpen = 0 → (Close p (some c)).pool.numOpen < 0) := by
  simp [Close, hc]
  omega

/-- An open pool with numOpen = 0. -/
def p10 : ChannelPool := ⟨[], [], 0, false, 1, 2, .cachedOrNewConn, 0⟩

/-- C10 witnessed: Close on a pool with numOpen = 0 drives numOpen to -1 and
still calls the closer. -/
theorem close_decrements_unconditionally_witness :
    (Close p10 (some 3)).pool.numOpen < 0 ∧
    (Close p10 (some 3)).closerCalls = [3] :=
  ⟨(close_decrements_unconditionally p10 3 rfl).2.2.2 rfl,
   (close_decrements_unconditionally p10 3 rfl).2.2.1⟩

lemma Put_pool_counters (p : ChannelPool) (conn : Option Nat) (now : Nat) :
    (Put p conn now).pool.numOpen = p.numOpen ∧
    (Put p conn now).pool.maxOpen = p.maxOpen := by
  rcases conn with _ | c
  · simp [Put]
  · simp only [Put]
    cases hc : p.closed
    · rw [if_neg (by simp)]
      split_ifs with hg
      · exact ⟨rfl, rfl⟩
      · cases p.waitingQueue <;> exact ⟨rfl, rfl⟩
    · rw [if_pos rfl]
      exact ⟨rfl, rfl⟩

lemma getRest_maxOpen (p : ChannelPool) (f : Option Nat) :
    (getRest p f).pool.maxOpen = p.maxOpen := by
  unfold getRest
  split_ifs
  · rfl
  · cases f <;> rfl

lemma getRest_numOpen (p : ChannelPool) (f : Option Nat)
    (hm : 0 < p.maxOpen) (h0 : 0 ≤ p.numOpen) (h1 : p.numOpen ≤ p.maxOpen) :
    0 ≤ (getRest p f).pool.numOpen ∧ (getRest p f).pool.numOpen ≤ p.maxOpen := by
  unfold getRest
  split_ifs with hcap
  · exact ⟨h0, h1⟩
  · have hlt : p.numOpen < p.maxOpen := by
      rcases not_and_or.mp hcap with h | h
      · omega
      · omega
    cases f
    · constructor <;> simp <;> omega
    · constructor <;> simp <;> omega

lemma Get_pool_counters (p : ChannelPool) (f : Option Nat)
    (hm : 0 < p.maxOpen) (h0 : 0 ≤ p.numOpen) (h1 : p.numOpen ≤ p.maxOpen) :
    (0 ≤ (Get p f).pool.numOpen ∧ (Get p f).pool.numOpen ≤ p.maxOpen) ∧
    (Get p f).pool.maxOpen = p.maxOpen := by
  unfold Get
  cases hc : p.closed
  · simp only [Bool.false_eq_true, if_false]
    cases hs : p.strategy <;> cases hfc : p.freeConn
    · exact ⟨getRest_numOpen p f hm h0 h1, getRest_maxOpen p f⟩
    · exact ⟨⟨h0, h1⟩, rfl⟩
    · exact ⟨getRest_numOpen p f hm h0 h1, getRest_maxOpen p f⟩
    · exact ⟨getRest_numOpen p f hm h0 h1, getRest_maxOpen p f⟩
  · exact ⟨⟨h0, h1⟩, rfl⟩

lemma step_counters (p : ChannelPool) (op : PoolOp)
    (hm : 0 < p.maxOpen) (h0 : 0 ≤ p.numOpen) (h1 : p.numOpen ≤ p.maxOpen) :
    (0 ≤ (step p op).numOpen ∧ (step p op).numOpen ≤ (step p op).maxOpen) ∧
    (step p op).maxOpen = p.maxOpen := by
  cases op with
  | get f =>
    have h := Get_pool_counters p f hm h0 h1
    exact ⟨⟨h.1.1, h.2 ▸ h.1.2⟩, h.2⟩
  | put c now =>
    have h := Put_pool_counters p c now
    simp only [step]
    refine ⟨⟨?_, ?_⟩, h.2⟩
    · rw [h.1]; exact h0
    · rw [h.1, h.2]; exact h1

/-- C6: over every sequence of Get and Put calls on a bounded pool
(maxOpen > 0) starting with 0 ≤ numOpen ≤ maxOpen, numOpen never exceeds
maxOpen and never becomes negative. -/
theorem numOpen_bounded (p : ChannelPool) (ops : List PoolOp)
    (hm : 0 < p.maxOpen) (h0 : 0 ≤ p.numOpen) (h1 : p.numOpen ≤ p.maxOpen) :
    0 ≤ (run p ops).numOpen ∧ (run p ops).numOpen ≤ (run p ops).maxOpen := by
  induction ops generalizing p with
  | nil => exact ⟨h0, h1⟩
  | cons op ops ih =>
    have h := step_counters p op hm h0 h1
    have hm' : 0 < (step p op).maxOpen := h.2 ▸ hm
    have h1' : (step p op).numOpen ≤ (step p op).maxOpen := h.1.2
    exact ih (step p op) hm' h.1.1 h1'

/-- An empty bounded pool: maxOpen = 2, numOpen = 0. -/
def p6 : ChannelPool := ⟨[], [], 0, false, 0, 2, .cachedOrNewConn, 0⟩

/-- C6 witnessed on a sequence that creates two connections, blocks a third
Get, returns one connection, and survives a factory failure. -/
theorem numOpen_bounded_witness :
    0 ≤ (run p6 [.get (some 1), .get (some 2), .get none, .put (some 1) 4,
        .get (some 3)]).numOpen ∧
    (run p6 [.get (some 1), .get (some 2), .get none, .put (some 1) 4,
        .get (some 3)]).numOpen ≤
      (run p6 [.get (some 1), .get (some 2), .get none, .put (some 1) 4,
        .get (some 3)]).maxOpen :=
  numOpen_bounded p6 [.get (some 1), .get (some 2), .get none, .put (some 1) 4,
    .get (some 3)] (by decide) (by decide) (by decide)

lemma evictExpired_fst_eq_drop (d now : Nat) (l : List IdleConn) :
    (evictExpired d now l).1 = l.drop (evictExpired d now l).2 := by
  induction l with
  | nil => rfl
  | cons ic rest ih =>
    simp only [evictExpired]
    split_ifs with h
    · simpa using ih
    · simp

lemma evictExpired_take_expired (d now : Nat) (l : List IdleConn) :
    ∀ ic ∈ l.take (evictExpired d now l).2, now - ic.t > d := by
  induction l with
  | nil => intro ic h; simp at h
  | cons jc rest ih =>
    intro ic hic
    simp only [evictExpired] at hic
    split_ifs at hic with h
    · simp only [List.take_succ_cons, List.mem_cons] at hic
      rcases hic with rfl | hic
      · exact h
      · exact ih ic hic
    · simp at hic

lemma evictExpired_head_live (d now : Nat) (l : List IdleConn)
    (ic : IdleConn) (rest : List IdleConn)
    (h : (evictExpired d now l).1 = ic :: rest) : ¬(now - ic.t > d) := by
  induction l with
  | nil => simp [evictExpired] at h
  | cons jc tail ih =>
    simp only [evictExpired] at h
    split_ifs at h with hj
    · exact ih (by simpa using h)
    · simp at h
      rcases h with ⟨rfl, rfl⟩
      exact hj

/-- C3: for the idle-timeout Get (modelled from the spec) with d > 0 on an
open pool: every connection in the evicted prefix was idle for more than d
and is passed to the closer; the connection handed out is the first
surviving one (oldest-first) with idle time at most d and numOpen drops by
the number evicted; if the whole idle list is evicted, the call falls
through to the capacity / creation logic on the drained state. -/
theorem getWithTimeout_spec (p : ChannelPool) (d now : Nat) (f : Option Nat)
    (hd : 0 < d) (hc : p.closed = false) :
    (∀ ic ∈ p.freeConn.take (evictExpired d now p.freeConn).2, now - ic.t > d) ∧
    (∀ ic rest, (evictExpired d now p.freeConn).1 = ic :: rest →
      now - ic.t ≤ d ∧
      getWithTimeout p d now f =
        ⟨.ok ic.conn,
         { p with freeConn := rest,
                  numOpen := p.numOpen - (evictExpired d now p.freeConn).2 },
         (p.freeConn.take (evictExpired d now p.freeConn).2).map IdleConn.conn⟩) ∧
    ((evictExpired d now p.freeConn).1 = [] →
      getWithTimeout p d now f =
        ⟨(getRest { p with freeConn := [], numOpen := p.numOpen - (evictExpired d now p.freeConn).2 } f).res,
         (getRest { p with freeConn := [], numOpen := p.numOpen - (evictExpired d now p.freeConn).2 } f).pool,
         (p.freeConn.take (evictExpired d now p.freeConn).2).map IdleConn.conn ++
           (getRest { p with freeConn := [], numOpen := p.numOpen - (evictExpired d now p.freeConn).2 } f).closerCalls⟩) := by
  refine ⟨evictExpired_take_expired d now p.freeConn, ?_, ?_⟩
  · intro ic rest h
    refine ⟨Nat.not_lt.mp (evictExpired_head_live d now p.freeConn ic rest h), ?_⟩
    simp only [getWithTimeout]
    rw [hc]
    rw [if_neg (by simp), if_pos hd]
    simp only [h]
  · intro h
    simp only [getWithTimeout]
    rw [hc]
    rw [if_neg (by simp), if_pos hd]
    simp only [h]

/-- A pool with an expired idle connection (1, idle since 0) in front of a
live one (2, idle since 10). -/
def p3 : ChannelPool := ⟨[⟨1, false, 0⟩, ⟨2, false, 10⟩], [], 2, false, 2, 5, .cachedOrNewConn, 0⟩

/-- C3 witnessed at d = 3, now = 12: the expired connection 1 is closed and
skipped, the live connection 2 is returned, numOpen drops from 2 to 1. -/
theorem getWithTimeout_spec_witness :
    (0 : Nat) < 3 ∧ p3.closed = false ∧
    12 - (10 : Nat) ≤ 3 ∧
    (getWithTimeout p3 3 12 none).res = .ok 2 ∧
    (getWithTimeout p3 3 12 none).closerCalls = [1] ∧
    (getWithTimeout p3 3 12 none).pool.numOpen = 1 ∧
    (getWithTimeout p3 3 12 none).pool.freeConn = [] := by
  have h := (getWithTimeout_spec p3 3 12 none (by decide) rfl).2.1
    ⟨2, false, 10⟩ [] (by decide)
  refine ⟨by decide, rfl, h.1, ?_, ?_, ?_, ?_⟩ <;> rw [h.2] <;> decide
